import Mathlib

/-!
Shallow embedding of the `panics` Go package (src/panics.go).

Modelling conventions:
* A Go `error` value is `GoError` (its `Error()` text in `text`); a possibly
  absent error (`error` that may be nil) is `Option GoError`.
* A panic payload (`any` passed to `panic`) is `Payload`: either an error
  value (the `r.(error)` type assertion succeeds) or any other value,
  carried as its `fmt` `%v` textual representation.
* A Go function that may panic is embedded as a value of `Outcome α`:
  `ok a` for normal completion, `panicked p` for an in-flight panic with
  payload `p`.  A unit of work handed to `Retry` is `fn : Nat → Outcome Unit`,
  giving the outcome of its i-th invocation (0-based), which models the
  (possibly stateful) Go closure invoked repeatedly.
* `slog.Error(template, v)` calls are recorded as `LogEntry` values in the
  order emitted; `runtime.Caller(1)`'s file and line are passed in as
  parameters, and `debug.Stack()` is the abstract token `LogVal.tracev`.
-/

/-- A Go `error` value, identified by its `Error()` text. -/
structure GoError where
  text : String
deriving DecidableEq, Repr

/-- A panic payload: an error value, or any other value via its `%v` text. -/
inductive Payload where
  | errVal (e : GoError)
  | other (s : String)
deriving DecidableEq, Repr

/-- The `%v` textual representation of a payload (`fmt` prints an error's
`Error()` text). -/
def payloadText : Payload → String
  | .errVal e => e.text
  | .other s => s

/-- Outcome of running a Go function: normal return or in-flight panic. -/
inductive Outcome (α : Type) where
  | ok (a : α)
  | panicked (p : Payload)
deriving DecidableEq, Repr

/-- What `recover()` returns inside a deferred call: `none` (Go `nil`) when no
panic is in flight, otherwise the payload. -/
def panicOf : Outcome Unit → Option Payload
  | .ok _ => none
  | .panicked p => some p

/-- The error RecoverAndHandle hands to its handler, from `src/panics.go`
lines 75-79: the payload itself when it is an error (`r.(error)`), else
`fmt.Errorf("recovered from panic: %v", r)`. -/
def capturedError : Payload → GoError
  | .errVal e => e
  | .other s => ⟨"recovered from panic: " ++ s⟩

/-- Embeds `RecoverAndHandle(fn)` from `src/panics.go` lines 73-81, as a deferred
call with the in-flight panic `r` (what `recover()` returns).  The handler is
embedded with explicit state `σ` (the Go closure's captured variables) and may
itself panic, so it returns `σ × Outcome Unit`; when it panics, that panic
leaves `RecoverAndHandle` as the overall outcome. -/
def RecoverAndHandle {σ : Type} (r : Option Payload)
    (fn : GoError → σ → σ × Outcome Unit) (s : σ) : σ × Outcome Unit :=
  match r with
  | none => (s, .ok ())
  | some p => fn (capturedError p) s

/-- Embeds `Try(fn)` from `src/panics.go` lines 118-129: runs `fn` (whose outcome is
`fnOut`) inside a closure with `defer RecoverAndHandle(func(err2){err = err2})`
and returns `err`.  If the deferred chain itself panicked the panic would
propagate out of `Try`; with this handler that cannot happen, but the case is
kept to mirror Go's semantics. -/
def Try (fnOut : Outcome Unit) : Outcome (Option GoError) :=
  match RecoverAndHandle (panicOf fnOut)
      (fun e2 (_ : Option GoError) => (some e2, Outcome.ok ())) none with
  | (err, .ok _) => .ok err
  | (_, .panicked p) => .panicked p

/-- One `slog.Error(template, value)` call. -/
inductive LogVal where
  | errv (e : GoError)
  | payloadv (p : Payload)
  | reqv (id : Nat)
  | tracev
deriving DecidableEq, Repr

structure LogEntry where
  template : String
  value : LogVal
deriving DecidableEq, Repr

/-- The loop of `Retry` from `src/panics.go` lines 92-104, with `retries`
already clamped to a `Nat` (the loop runs while `retries > 0`), `calls`
invocations of `fn` made so far, and the `slog.Error` entries so far.
Returns (overall outcome, total invocations of `fn`, log entries). -/
def RetryAux (fn : Nat → Outcome Unit) :
    Nat → Nat → List LogEntry → Outcome Unit × Nat × List LogEntry
  | 0, calls, logs => (.ok (), calls, logs)
  | retries + 1, calls, logs =>
    match Try (fn calls) with
    | .ok none => (.ok (), calls + 1, logs)
    | .ok (some e) =>
        RetryAux fn retries (calls + 1)
          (logs ++ [⟨"Retrying function due to error: %v", .errv e⟩])
    | .panicked p => (.panicked p, calls + 1, logs)

/-- Embeds `Retry(maxRetries, fn)` from `src/panics.go` lines 92-104.  `maxRetries`
is a Go `int`; the `for retries > 0` loop runs `maxRetries.toNat` times at
most. -/
def Retry (maxRetries : Int) (fn : Nat → Outcome Unit) :
    Outcome Unit × Nat × List LogEntry :=
  RetryAux fn maxRetries.toNat 0 []

/-- The log entries `Recover()` (src/panics.go lines 50-58) writes for the
in-flight panic `r`: nothing when `recover()` returns nil, else one error
entry whose template depends on the `r.(error)` type assertion. -/
def recoverLogs : Option Payload → List LogEntry
  | none => []
  | some (.errVal e) => [⟨"Recovered from panic: %w", .errv e⟩]
  | some p => [⟨"recovered from panic: %v", .payloadv p⟩]

/-- A function body run with `defer Recover()`: `Recover` unconditionally
calls `recover()`, so an in-flight panic is always consumed and the enclosing
function returns normally whatever `body` did.  Returns the enclosing
function's outcome and the log entries written. -/
def deferRecover (body : Outcome Unit) : Outcome Unit × List LogEntry :=
  match body with
  | .ok _ => (.ok (), recoverLogs (panicOf body))
  | .panicked _ => (.ok (), recoverLogs (panicOf body))

/-- An HTTP response as the middleware writes it: status code and body. -/
structure Response where
  status : Nat
  body : String
deriving DecidableEq, Repr

/-- Embeds `http.Error(w, msg, code)`: writes `code` and `msg` to the response. -/
def httpError (msg : String) (code : Nat) : Response := ⟨code, msg⟩

def httpStatusInternalServerError : Nat := 500

/-- Embeds `RecoveryMiddleware(next)` from `src/panics.go` lines 133-148, handling
one request (identified by `reqId`; the Go `*http.Request` is the variable
`r`).  `next` is the outcome of `next.ServeHTTP(w, r)`.  Note line 140 logs
`r` — the request — not the recovered value `rec`, mirrored here exactly.
Returns (outcome crossing the request boundary, log entries, the response the
middleware itself wrote, if any). -/
def RecoveryMiddleware (reqId : Nat) (next : Outcome Unit) :
    Outcome Unit × List LogEntry × Option Response :=
  match panicOf next with
  | none => (.ok (), [], none)
  | some rec =>
    let firstLog : LogEntry :=
      match rec with
      | .errVal e => ⟨"recovered from panic: %w", .errv e⟩
      | _ => ⟨"recovered from panic: %v", .reqv reqId⟩
    (.ok (), [firstLog, ⟨"Stacktrace: %s\n", .tracev⟩],
      some (httpError "Internal Server Error" httpStatusInternalServerError))

/-- Embeds `fmt.Sprintf("(%s:%d): %s %v", file, line, message, err)` as built by
`OnError` (src/panics.go line 16). -/
def onErrorMsg (file : String) (line : Nat) (message errText : String) : String :=
  "(" ++ file ++ ":" ++ toString line ++ "): " ++ message ++ " " ++ errText

/-- Embeds `OnError(err, message)` from `src/panics.go` lines 13-18; `file`/`line`
are what `runtime.Caller(1)` reports (the call site one level above). -/
def OnError (err : Option GoError) (message : String)
    (file : String) (line : Nat) : Outcome Unit :=
  match err with
  | none => .ok ()
  | some e => .panicked (.other (onErrorMsg file line message e.text))

/-- Embeds Go's `unicode.IsSpace` over the characters Go's `strings.TrimSpace` trims:
Latin-1 white space and the Unicode space property. -/
def goIsSpace (c : Char) : Bool :=
  c == ' ' || c == '\t' || c == '\n' || c.val == 0x0B || c.val == 0x0C ||
  c == '\r' || c.val == 0x85 || c.val == 0xA0 || c.val == 0x1680 ||
  (0x2000 ≤ c.val && c.val ≤ 0x200A) || c.val == 0x2028 || c.val == 0x2029 ||
  c.val == 0x202F || c.val == 0x205F || c.val == 0x3000

/-- Embeds `strings.TrimSpace` on the character list: drop white space from both
ends. -/
def trimSpaceList (l : List Char) : List Char :=
  ((l.dropWhile goIsSpace).reverse.dropWhile goIsSpace).reverse

/-- Embeds `strings.TrimSpace(s)`. -/
def TrimSpace (s : String) : String :=
  ⟨trimSpaceList s.data⟩

/-- Embeds `OnBlank(value, message)` from `src/panics.go` lines 37-42; `file`/`line`
are what `runtime.Caller(1)` reports.  The panic message ends in a period:
`fmt.Sprintf("(%s:%d): %s %v.", ..., "blank string")`. -/
def OnBlank (value message : String) (file : String) (line : Nat) : Outcome Unit :=
  if TrimSpace value = "" then
    .panicked (.other ("(" ++ file ++ ":" ++ toString line ++ "): " ++
      message ++ " blank string."))
  else .ok ()

/-! ## Helper lemmas -/

theorem data_append (s t : String) : (s ++ t).data = s.data ++ t.data := rfl

theorem try_panicked (p : Payload) :
    Try (.panicked p) = .ok (some (capturedError p)) := rfl

theorem try_ok : Try (.ok ()) = .ok none := rfl

/-! ## Claims -/

/-- C3: a payload captured by the recovery mechanism: an error payload is
handed over unchanged (identity preserved), any other payload becomes an
error whose message is the payload's `%v` text prefixed with the marker
`recovered from panic: `; and this is what `Try` surfaces. -/
theorem C3_capturedError_invariant :
    (∀ e : GoError, capturedError (.errVal e) = e) ∧
    (∀ s : String,
      (capturedError (.other s)).text = "recovered from panic: " ++ payloadText (.other s)) ∧
    (∀ p : Payload, Try (.panicked p) = .ok (some (capturedError p))) :=
  ⟨fun _ => rfl, fun _ => rfl, fun _ => rfl⟩

/-- C7: a deferred `Recover()` always swallows an in-flight panic: whatever
the body did, the enclosing function's outcome is a normal return. -/
theorem C7_recover_swallows (body : Outcome Unit) :
    (deferRecover body).1 = .ok () := by
  cases body <;> rfl

/-- C2 counterexample: when the unit of work panics with the non-error
payload `"fail"`, `Try` returns an error whose text is
`"recovered from panic: fail"`, which is not the payload's text `"fail"`. -/
theorem C2_counterexample :
    ∃ e : GoError, Try (.panicked (.other "fail")) = .ok (some e) ∧
      e.text ≠ payloadText (.other "fail") :=
  ⟨⟨"recovered from panic: fail"⟩, rfl, by decide⟩

/-- C2 (amended): `Try` returns no error when the unit of work completes
normally; when it panics, `Try` returns a non-absent error, which is the
payload itself when the payload is an error value (equal textual content),
and otherwise has the payload's text prefixed with `recovered from panic: `. -/
theorem C2_try_amended :
    Try (.ok ()) = .ok none ∧
    (∀ p : Payload, ∃ e : GoError, Try (.panicked p) = .ok (some e) ∧
      (∀ e0, p = .errVal e0 → e = e0) ∧
      (∀ s, p = .other s → e.text = "recovered from panic: " ++ s)) := by
  refine ⟨rfl, fun p => ⟨capturedError p, rfl, ?_, ?_⟩⟩ <;> rintro x rfl <;> rfl

/-- C4: a deferred `RecoverAndHandle(h)` invokes its handler exactly once
when a panic is in flight (the instrumented handler's counter ends at 1)
and never when none is (counter stays 0); and the handler body's own
outcome — in particular a panic it raises — passes through as
`RecoverAndHandle`'s outcome, un-recaught. -/
theorem C4_recoverAndHandle_handler (body : GoError → Outcome Unit) (p : Payload) :
    (RecoverAndHandle (some p) (fun e (n : Nat) => (n + 1, body e)) 0).1 = 1 ∧
    (RecoverAndHandle none (fun e (n : Nat) => (n + 1, body e)) 0).1 = 0 ∧
    (RecoverAndHandle (some p) (fun e (n : Nat) => (n + 1, body e)) 0).2 =
      body (capturedError p) ∧
    (∀ q, body (capturedError p) = .panicked q →
      (RecoverAndHandle (some p) (fun e (n : Nat) => (n + 1, body e)) 0).2 =
        .panicked q) :=
  ⟨rfl, rfl, rfl, fun _ h => h⟩

/-- C5 (at the failing input): a handler panicking with the non-error payload
`"boom"` on request 7 is intercepted (the middleware returns normally) and a
500 `"Internal Server Error"` response is written, but the first log entry
records the request — not the captured error or payload: line 140 of
src/panics.go logs the shadowing variable `r` instead of `rec`. -/
theorem C5_middleware_logs_request_not_error :
    RecoveryMiddleware 7 (.panicked (.other "boom")) =
      (.ok (),
        [⟨"recovered from panic: %v", .reqv 7⟩, ⟨"Stacktrace: %s\n", .tracev⟩],
        some ⟨500, "Internal Server Error"⟩) ∧
    (∀ entry ∈ (RecoveryMiddleware 7 (.panicked (.other "boom"))).2.1,
      entry.value ≠ .payloadv (.other "boom") ∧
      entry.value ≠ .errv (capturedError (.other "boom"))) := by
  exact ⟨rfl, by decide⟩

/-- C10: for every `maxRetries ≤ 0`, `Retry` makes zero invocations of the
unit of work and returns normally, with nothing logged. -/
theorem C10_retry_nonpositive (fn : Nat → Outcome Unit) (n : Int) (h : n ≤ 0) :
    Retry n fn = (.ok (), 0, []) := by
  unfold Retry
  rw [Int.toNat_of_nonpos h]
  rfl

theorem C10_witness :
    Retry (-3) (fun _ => .panicked (.other "boom")) = (.ok (), 0, []) :=
  C10_retry_nonpositive (fun _ => .panicked (.other "boom")) (-3) (by decide)

/-- Every attempt of an all-panicking unit of work fails, so the loop runs
its full budget: outcome is a normal return, `r` more calls are made, one
log entry per failed attempt, and the last entry logs the last attempt's
captured error. -/
theorem retryAux_allPanic (fn : Nat → Outcome Unit)
    (hp : ∀ i, ∃ p, fn i = .panicked p) :
    ∀ (r c : Nat) (logs : List LogEntry),
      (RetryAux fn r c logs).1 = .ok () ∧
      (RetryAux fn r c logs).2.1 = c + r ∧
      (RetryAux fn r c logs).2.2.length = logs.length + r ∧
      (∀ p, 1 ≤ r → fn (c + r - 1) = .panicked p →
        (RetryAux fn r c logs).2.2.getLast? =
          some ⟨"Retrying function due to error: %v", .errv (capturedError p)⟩) := by
  intro r
  induction r with
  | zero =>
      intro c logs
      exact ⟨rfl, rfl, by simp [RetryAux], fun p h => absurd h (by omega)⟩
  | succ r ih =>
      intro c logs
      obtain ⟨p0, hp0⟩ := hp c
      have hstep : RetryAux fn (r + 1) c logs =
          RetryAux fn r (c + 1)
            (logs ++ [⟨"Retrying function due to error: %v",
              .errv (capturedError p0)⟩]) := by
        simp [RetryAux, hp0, try_panicked]
      obtain ⟨h1, h2, h3, h4⟩ := ih (c + 1)
        (logs ++ [⟨"Retrying function due to error: %v", .errv (capturedError p0)⟩])
      refine ⟨hstep ▸ h1, by rw [hstep, h2]; omega, by rw [hstep, h3]; simp; omega,
        fun p _ hfn => ?_⟩
      rw [hstep]
      rcases Nat.eq_zero_or_pos r with hr0 | hrpos
      · subst hr0
        have hc : fn (c + 1 - 1) = .panicked p0 := by simpa using hp0
        have : p = p0 := by
          rw [hc] at hfn
          exact (Outcome.panicked.inj hfn.symm)
        subst this
        simp [RetryAux, List.getLast?_concat]
      · have hidx : c + (r + 1) - 1 = (c + 1) + r - 1 := by omega
        exact h4 p (by omega) (by rw [← hidx]; exact hfn)

/-- C1: when the unit of work panics on every invocation and `n ≥ 1`,
`Retry(n, fn)` invokes it exactly `n` times, returns normally (no panic, no
error value surfaced — the embedding's outcome carries no error component),
and every failure including the last is only logged: `n` log entries, the
last being the captured error of the last attempt. -/
theorem C1_retry_all_fail (fn : Nat → Outcome Unit)
    (hp : ∀ i, ∃ p, fn i = .panicked p) (n : Int) (hn : 1 ≤ n) :
    (Retry n fn).1 = .ok () ∧
    (Retry n fn).2.1 = n.toNat ∧
    (Retry n fn).2.2.length = n.toNat ∧
    (∀ p, fn (n.toNat - 1) = .panicked p →
      (Retry n fn).2.2.getLast? =
        some ⟨"Retrying function due to error: %v", .errv (capturedError p)⟩) := by
  obtain ⟨h1, h2, h3, h4⟩ := retryAux_allPanic fn hp n.toNat 0 []
  refine ⟨h1, by simpa using h2, by simpa using h3, fun p hfn => ?_⟩
  exact h4 p (by omega) (by simpa using hfn)

theorem C1_witness :
    (Retry 2 (fun _ => .panicked (.other "fail"))).1 = .ok () ∧
    (Retry 2 (fun _ => .panicked (.other "fail"))).2.1 = 2 :=
  ⟨(C1_retry_all_fail (fun _ => .panicked (.other "fail"))
      (fun _ => ⟨.other "fail", rfl⟩) 2 (by decide)).1,
   (C1_retry_all_fail (fun _ => .panicked (.other "fail"))
      (fun _ => ⟨.other "fail", rfl⟩) 2 (by decide)).2.1⟩

/-- When the unit of work panics on the first `j` attempts beginning at call
count `c` and completes normally on the next one, the loop stops right after
that success: `j + 1` more calls in total, provided the budget covers them. -/
theorem retryAux_succeedsAt (fn : Nat → Outcome Unit) :
    ∀ (j r c : Nat) (logs : List LogEntry), j < r →
      (∀ i, i < j → ∃ p, fn (c + i) = .panicked p) →
      fn (c + j) = .ok () →
      (RetryAux fn r c logs).1 = .ok () ∧
      (RetryAux fn r c logs).2.1 = c + j + 1 := by
  intro j
  induction j with
  | zero =>
      intro r c logs hr hfail hok
      obtain ⟨r, rfl⟩ : ∃ r0, r = r0 + 1 := ⟨r - 1, by omega⟩
      have hc : fn c = .ok () := by simpa using hok
      constructor <;> simp [RetryAux, hc, try_ok]
  | succ j ih =>
      intro r c logs hr hfail hok
      obtain ⟨r, rfl⟩ : ∃ r0, r = r0 + 1 := ⟨r - 1, by omega⟩
      obtain ⟨p0, hp0⟩ := hfail 0 (by omega)
      have hc : fn c = .panicked p0 := by simpa using hp0
      have hstep : RetryAux fn (r + 1) c logs =
          RetryAux fn r (c + 1)
            (logs ++ [⟨"Retrying function due to error: %v",
              .errv (capturedError p0)⟩]) := by
        simp [RetryAux, hc, try_panicked]
      have hfail' : ∀ i, i < j → ∃ p, fn ((c + 1) + i) = .panicked p := by
        intro i hi
        obtain ⟨p, hp⟩ := hfail (i + 1) (by omega)
        exact ⟨p, by rw [show (c + 1) + i = c + (i + 1) by omega]; exact hp⟩
      have hok' : fn ((c + 1) + j) = .ok () := by
        rw [show (c + 1) + j = c + (j + 1) by omega]; exact hok
      obtain ⟨h1, h2⟩ := ih r (c + 1) _ (by omega) hfail' hok'
      exact ⟨hstep ▸ h1, by rw [hstep, h2]; omega⟩

/-- C6: when the unit of work first succeeds on attempt `k` (raising on
attempts `1..k-1`) and `1 ≤ k ≤ n`, `Retry(n, fn)` invokes it exactly `k`
times — no further attempts after the success — and returns normally. -/
theorem C6_retry_stops_on_success (fn : Nat → Outcome Unit) (k : Nat) (n : Int)
    (hk : 1 ≤ k) (hkn : (k : Int) ≤ n)
    (hfail : ∀ i, i + 1 < k → ∃ p, fn i = .panicked p)
    (hok : fn (k - 1) = .ok ()) :
    (Retry n fn).1 = .ok () ∧ (Retry n fn).2.1 = k := by
  have hfail' : ∀ i, i < k - 1 → ∃ p, fn (0 + i) = .panicked p := by
    intro i hi
    simpa using hfail i (by omega)
  obtain ⟨h1, h2⟩ := retryAux_succeedsAt fn (k - 1) n.toNat 0 [] (by omega) hfail'
    (by simpa using hok)
  exact ⟨h1, by unfold Retry; omega⟩

theorem C6_witness :
    (Retry 5 (fun i => if i < 2 then .panicked (.other "x") else .ok ())).1 =
      .ok () ∧
    (Retry 5 (fun i => if i < 2 then .panicked (.other "x") else .ok ())).2.1 = 3 :=
  C6_retry_stops_on_success (fun i => if i < 2 then .panicked (.other "x") else .ok ())
    3 5 (by decide) (by decide)
    (fun i hi => ⟨.other "x", by simp [show i < 2 by omega]⟩)
    (by decide)

/-- C8: `OnError` raises exactly when the error is non-absent; when it does,
its panic message is the `Sprintf` of the call site, the message and the
error text, and each of the call-site file, the line, the message and the
error's text occurs inside it; an absent error returns normally (the
embedding has no other effect). -/
theorem C8_onError (err : Option GoError) (message file : String) (line : Nat) :
    (OnError err message file line = .ok () ↔ err = none) ∧
    (∀ e, err = some e →
      OnError err message file line =
        .panicked (.other (onErrorMsg file line message e.text)) ∧
      (∃ a b, (onErrorMsg file line message e.text).data = a ++ file.data ++ b) ∧
      (∃ a b, (onErrorMsg file line message e.text).data =
        a ++ (toString line).data ++ b) ∧
      (∃ a b, (onErrorMsg file line message e.text).data =
        a ++ message.data ++ b) ∧
      (∃ a b, (onErrorMsg file line message e.text).data =
        a ++ e.text.data ++ b)) := by
  constructor
  · cases err <;> simp [OnError]
  · rintro e rfl
    refine ⟨rfl,
      ⟨"(".data, (":" ++ toString line ++ "): " ++ message ++ " " ++ e.text).data, ?_⟩,
      ⟨("(" ++ file ++ ":").data, ("): " ++ message ++ " " ++ e.text).data, ?_⟩,
      ⟨("(" ++ file ++ ":" ++ toString line ++ "): ").data,
        (" " ++ e.text).data, ?_⟩,
      ⟨("(" ++ file ++ ":" ++ toString line ++ "): " ++ message ++ " ").data,
        [], ?_⟩⟩ <;>
    simp [onErrorMsg, data_append, List.append_assoc]

/-- Whitespace-trimming from both ends yields the empty list exactly when
every character is white space. -/
theorem trimSpaceList_eq_nil_iff (l : List Char) :
    trimSpaceList l = [] ↔ ∀ c ∈ l, goIsSpace c = true := by
  unfold trimSpaceList
  constructor
  · intro h c hc
    rw [List.reverse_eq_nil_iff, List.dropWhile_eq_nil_iff] at h
    have h2 : ∀ x ∈ l.dropWhile goIsSpace, goIsSpace x := by
      intro x hx
      exact h x (List.mem_reverse.mpr hx)
    rw [← List.takeWhile_append_dropWhile goIsSpace l] at hc
    rcases List.mem_append.mp hc with h3 | h3
    · exact List.mem_takeWhile_imp h3
    · exact h2 c h3
  · intro h
    have h1 : l.dropWhile goIsSpace = [] := List.dropWhile_eq_nil_iff.mpr h
    simp [h1]

/-- C9: `OnBlank` raises exactly when the trimmed string is empty, which
holds exactly when every character of the string is white space (so it
raises on the empty and the all-whitespace strings); a string with at least
one non-whitespace character makes it a no-op. -/
theorem C9_onBlank (value message file : String) (line : Nat) :
    ((∃ p, OnBlank value message file line = .panicked p) ↔
      TrimSpace value = "") ∧
    (TrimSpace value = "" ↔ ∀ c ∈ value.data, goIsSpace c = true) ∧
    ((∃ c ∈ value.data, goIsSpace c = false) →
      OnBlank value message file line = .ok ()) := by
  have hTrim : TrimSpace value = "" ↔ ∀ c ∈ value.data, goIsSpace c = true := by
    rw [String.ext_iff]
    exact trimSpaceList_eq_nil_iff value.data
  refine ⟨?_, hTrim, ?_⟩
  · by_cases h : TrimSpace value = ""
    · simp [OnBlank, h]
    · simp [OnBlank, h]
  · rintro ⟨c, hc, hcs⟩
    have hne : ¬ TrimSpace value = "" := by
      rw [hTrim]
      intro hall
      have h2 := hall c hc
      rw [hcs] at h2
      exact Bool.false_ne_true h2
    simp [OnBlank, hne]
